import Mathlib

/-!
Verification development for the `tomas_per` module of the repository
(Trading212 position fetch → pydantic validation/normalization → InfluxDB
point construction).  The Python source is shallowly embedded: pydantic's
declarative validation of the `Position` model is rendered as an explicit
`parseRecord` function over JSON-like records, the `httpx` transport is
rendered as an explicit outcome value fed to `get_open_positions`, and the
InfluxDB `Point` builder is rendered as a record-builder over association
lists.  Python floats are modelled as exact rationals (ℚ); float rounding
is outside the scope of the properties proved here.
-/

namespace TomasPer

/-- A JSON scalar as it appears in the brokerage API response records.
Objects and arrays never occur as field values in this schema, so they are
not modelled.  (Pydantic's lax coercion of numeric strings to floats and of
numeric epochs to datetimes is not modelled; no property here depends on
those coercions.) -/
inductive JsonValue where
  | num (q : ℚ)
  | str (s : String)
  | null
deriving DecidableEq, Repr

/-- A raw record of the API response: a JSON object, i.e. an ordered
key-value dictionary. -/
abbrev RawRecord := List (String × JsonValue)

/-- A Python `datetime`, identified by its ISO-8601 rendering.  All the
properties proved here treat timestamps as opaque values that are only
compared for equality, so this representation is sufficient. -/
structure PyDateTime where
  iso : String
deriving DecidableEq, Repr

/-- The validated `Position` entity of `src/schema.py`.  Field order and
names follow the class body; `profit` is aliased from `ppl` and
`forex_movement_impact` from `fxPpl`.  `current_value` is a computed
field, hence deliberately not a stored field of this structure. -/
structure Position where
  ticker : String
  quantity : ℚ
  average_price : ℚ
  current_price : ℚ
  profit : ℚ
  forex_movement_impact : Option ℚ
  initial_fill_date : PyDateTime
  frontend : String
  max_buy : ℚ
  max_sell : ℚ
  pie_quantity : ℚ
deriving DecidableEq, Repr

/-- Python's `str.partition(sep)` for a single-character separator, on the
character list of the string: returns the part before the first occurrence
of `sep`, the separator itself (empty if not found), and the rest. -/
def pyPartitionChar (sep : Char) : List Char → List Char × List Char × List Char
  | [] => ([], [], [])
  | c :: cs =>
    if c = sep then ([], [sep], cs)
    else
      let (pre, mid, post) := pyPartitionChar sep cs
      (c :: pre, mid, post)

/-- `Position.validate_ticker` of `src/schema.py`:
`ticker, _, _ = value.partition("_")` followed by `return ticker.upper()`.
Python's `str.upper` agrees with `Char.toUpper` on the ASCII tickers this
API produces. -/
def validate_ticker (value : String) : String :=
  let (ticker, _, _) := pyPartitionChar '_' value.data
  String.mk (ticker.map Char.toUpper)

/-- `Position.current_value` of `src/schema.py`: a `computed_field`,
recomputed from `current_price` and `quantity` on each access — by
construction it is not a stored field of `Position`. -/
def Position.current_value (p : Position) : ℚ :=
  p.current_price * p.quantity

/-- An InfluxDB client `Point` as built by `influxdb_client.Point`:
a measurement name, the `_tags` dictionary, the `_fields` dictionary
(whose values may be Python `None`, modelled as `Option.none`), and the
`_time` value.  Dictionaries are modelled as association lists in
insertion order; all keys inserted by this program are distinct. -/
structure Point where
  measurement : String
  tags : List (String × String)
  fields : List (String × Option ℚ)
  time : Option PyDateTime
deriving DecidableEq, Repr

/-- `Point(measurement)`: a fresh point with empty tag and field sets. -/
def Point.init (measurement : String) : Point :=
  ⟨measurement, [], [], none⟩

/-- `Point.tag(key, value)`: records the tag and returns the point. -/
def Point.tag (p : Point) (key value : String) : Point :=
  { p with tags := p.tags ++ [(key, value)] }

/-- `Point.field(key, value)`: records the field (the value may be Python
`None`, which the client stores as-is) and returns the point. -/
def Point.fieldEntry (p : Point) (key : String) (value : Option ℚ) : Point :=
  { p with fields := p.fields ++ [(key, value)] }

/-- `Point.time(time)`: sets the point's timestamp. -/
def Point.withTime (p : Point) (t : PyDateTime) : Point :=
  { p with time := some t }

/-- `Position.to_point` of `src/schema.py`.  The Python signature is
`to_point(self, time: datetime | None = None)`; when `time` is `None` the
method reads the ambient clock (`datetime.now(tz=UTC)`), which is passed
here explicitly as `now`. -/
def Position.to_point (p : Position) (time : Option PyDateTime) (now : PyDateTime) : Point :=
  let t := time.getD now
  ((((((((Point.init "stock_price").tag "ticker" p.ticker).fieldEntry
    "current_price" (some p.current_price)).fieldEntry
    "average_price" (some p.average_price)).fieldEntry
    "quantity" (some p.quantity)).fieldEntry
    "profit" (some p.profit)).fieldEntry
    "forex_movement_impact" p.forex_movement_impact).fieldEntry
    "current_value" (some p.current_value)).withTime t

/-! ### Pydantic validation of one record

`model_config = ConfigDict(alias_generator=to_camel, populate_by_name=True)`:
each field is looked up under its alias (camel-case generated, except the
explicit aliases `ppl` and `fxPpl`) and, failing that, under its field name
(`populate_by_name=True`).  A missing required field or a value that cannot
be coerced fails validation.  `forex_movement_impact : float | None` has no
default, so in pydantic v2 the key is required while its value may be null;
every other field rejects null. -/

/-- A single validation issue, identifying the offending field. -/
inductive ValIssue where
  | missing (loc : String)
  | typeError (loc : String)
deriving DecidableEq, Repr

/-- Look a field up in the raw record: by alias first, then by field name
(`populate_by_name=True`). -/
def lookupKey (r : RawRecord) (al name : String) : Option JsonValue :=
  match r.lookup al with
  | some v => some v
  | none => r.lookup name

/-- Coercion of a JSON value to a required float field. -/
def coerceFloat (loc : String) : JsonValue → Except ValIssue ℚ
  | .num q => .ok q
  | _ => .error (.typeError loc)

/-- Coercion of a JSON value to a required string field (pydantic v2 does
not coerce numbers to strings). -/
def coerceStr (loc : String) : JsonValue → Except ValIssue String
  | .str s => .ok s
  | _ => .error (.typeError loc)

/-- Coercion of a JSON value to a required datetime field: an ISO string is
accepted (format checking is not modelled; no property depends on it). -/
def coerceDatetime (loc : String) : JsonValue → Except ValIssue PyDateTime
  | .str s => .ok ⟨s⟩
  | _ => .error (.typeError loc)

/-- Coercion of the `ticker` value: `validate_ticker` runs in `before` mode
on the raw value, so a string is normalized and any non-string fails
(`partition` is a `str` method). -/
def coerceTicker (loc : String) : JsonValue → Except ValIssue String
  | .str s => .ok (validate_ticker s)
  | _ => .error (.typeError loc)

/-- Coercion of the nullable `forex_movement_impact` value: null is
accepted as `none`, a number as `some`, anything else fails. -/
def coerceOptFloat (loc : String) : JsonValue → Except ValIssue (Option ℚ)
  | .num q => .ok (some q)
  | .null => .ok none
  | _ => .error (.typeError loc)

/-- Require a field to be present (under alias or name) and coerce it. -/
def requireField {α : Type} (r : RawRecord) (al name : String)
    (coe : String → JsonValue → Except ValIssue α) : Except ValIssue α :=
  match lookupKey r al name with
  | none => .error (.missing al)
  | some v => coe al v

/-- Pydantic validation of one raw record into a `Position`
(`parse(raw_record) -> Position` of the spec; in the source, one element
of `TypeAdapter(list[Position]).validate_python(...)`).  Aliases are the
camel-case forms generated by `to_camel` plus the explicit `ppl` and
`fxPpl`. -/
def parseRecord (r : RawRecord) : Except ValIssue Position := do
  let ticker ← requireField r "ticker" "ticker" coerceTicker
  let quantity ← requireField r "quantity" "quantity" coerceFloat
  let average_price ← requireField r "averagePrice" "average_price" coerceFloat
  let current_price ← requireField r "currentPrice" "current_price" coerceFloat
  let profit ← requireField r "ppl" "profit" coerceFloat
  let forex_movement_impact ← requireField r "fxPpl" "forex_movement_impact" coerceOptFloat
  let initial_fill_date ← requireField r "initialFillDate" "initial_fill_date" coerceDatetime
  let frontend ← requireField r "frontend" "frontend" coerceStr
  let max_buy ← requireField r "maxBuy" "max_buy" coerceFloat
  let max_sell ← requireField r "maxSell" "max_sell" coerceFloat
  let pie_quantity ← requireField r "pieQuantity" "pie_quantity" coerceFloat
  return ⟨ticker, quantity, average_price, current_price, profit,
    forex_movement_impact, initial_fill_date, frontend, max_buy, max_sell,
    pie_quantity⟩

/-- `TypeAdapter(list[Position]).validate_python` over a list, starting at
element index `i`: every element is validated; any failure fails the whole
batch with a `ValidationError` listing each offending element's index and
issue (pydantic collects the issues of all invalid elements). -/
def validateListAux : Nat → List RawRecord → Except (List (Nat × ValIssue)) (List Position)
  | _, [] => .ok []
  | i, r :: rs =>
    match parseRecord r, validateListAux (i + 1) rs with
    | .ok p, .ok ps => .ok (p :: ps)
    | .ok _, .error es => .error es
    | .error e, .ok _ => .error [(i, e)]
    | .error e, .error es => .error ((i, e) :: es)

/-- Validation of the whole fetched batch. -/
def validatePositions (body : List RawRecord) : Except (List (Nat × ValIssue)) (List Position) :=
  validateListAux 0 body

/-! ### Transport client (`src/clients/t212.py`) and orchestrator (`main.py`)

The behaviour of the `httpx` transport during `client.get(url)` is an input
to the embedding: either the call raises a request-level `HTTPError`
subclass (connect error, timeout, ...) before any response exists, or it
returns a response with a status code and a JSON body. -/

/-- The cause wrapped by `APICallFailedException`: an `httpx.HTTPError`.
`requestError` stands for a request-level exception raised by
`client.get` itself; `statusError status` is the `HTTPStatusError` raised
by `response.raise_for_status()` on a non-2xx status. -/
inductive HTTPErrorKind where
  | requestError
  | statusError (status : Nat)
deriving DecidableEq, Repr

/-- The outcome of the single `client.get(t212_settings.url)` call. -/
inductive TransportOutcome where
  | raises (e : HTTPErrorKind)
  | response (status : Nat) (body : List RawRecord)
deriving DecidableEq, Repr

/-- An HTTP response as seen by `get_open_positions`. -/
structure HTTPResponse where
  status : Nat
  body : List RawRecord
deriving DecidableEq, Repr

/-- An exception escaping `get_open_positions`:
`APICallFailedException` raised `from exc` (the cause is the wrapped
`HTTPError`); the `UnboundLocalError` raised when the handler's log
f-string reads a name that was never assigned; or the pydantic
`ValidationError` from `TypeAdapter(...).validate_python`, listing the
offending records. -/
inductive PyError where
  | apiCallFailed (cause : HTTPErrorKind)
  | unboundLocal (name : String)
  | validationError (issues : List (Nat × ValIssue))
deriving DecidableEq, Repr

/-- Client lifecycle events of one `get_open_positions` call:
`Client(...)` construction and `client.close()`. -/
inductive ClientEvent where
  | opened
  | closed
deriving DecidableEq, Repr

/-- `client.get(url)` under a given transport outcome. -/
def clientGet (t : TransportOutcome) : Except HTTPErrorKind HTTPResponse :=
  match t with
  | .raises e => .error e
  | .response status body => .ok ⟨status, body⟩

/-- `with get_t212_client() as client: ...` (the `@contextmanager` in
`src/clients/t212.py`): the client is constructed on entry and
`client.close()` runs in the `finally` block, so the close event is
emitted whether the body returns or raises; the body's outcome is
propagated unchanged. -/
def run_with_t212_client {α : Type} (body : Except HTTPErrorKind α) :
    List ClientEvent × Except HTTPErrorKind α :=
  ([ClientEvent.opened, ClientEvent.closed], body)

/-- `response.raise_for_status()`: `some` `HTTPStatusError` on a non-2xx
status, `none` on a 2xx status. -/
def raise_for_status (status : Nat) : Option HTTPErrorKind :=
  if 200 ≤ status ∧ status < 300 then none else some (.statusError status)

/-- `get_open_positions` of `src/clients/t212.py`, as a function of the
transport outcome, returning the client lifecycle events and the result.

Control flow of the source: inside `try`, the `with` block performs the
single GET and closes the client; `response.raise_for_status()` follows.
`except HTTPError as exc` first evaluates the log f-string, which reads
`response.status_code`: when `client.get` itself raised, the local
`response` was never assigned, so that read raises `UnboundLocalError`
(the original `HTTPError` remains only implicit context); when a response
exists, the log succeeds and `APICallFailedException` is raised
`from exc`.  On a 2xx response the body is validated, and a pydantic
`ValidationError` propagates uncaught. -/
def get_open_positions (t : TransportOutcome) :
    List ClientEvent × Except PyError (List Position) :=
  let (events, getResult) := run_with_t212_client (clientGet t)
  (events,
    match getResult with
    | .error _exc => .error (.unboundLocal "response")
    | .ok response =>
      match raise_for_status response.status with
      | some exc => .error (.apiCallFailed exc)
      | none =>
        match validatePositions response.body with
        | .error issues => .error (.validationError issues)
        | .ok positions => .ok positions)

/-- `main.py` list comprehension: one shared `timestamp` is captured and
passed to every `to_point` call of the batch. -/
def buildPoints (positions : List Position) (timestamp now : PyDateTime) : List Point :=
  positions.map (fun position => position.to_point (some timestamp) now)

/-- The `__main__` block of `main.py` as a function of the transport
outcome and the ambient clock `now` (read once, as
`timestamp = datetime.now(tz=UTC)`).  The first component lists the
batches passed to `push_data_to_influxdb`: an exception from
`get_open_positions` propagates before any write call is made. -/
def main_run (t : TransportOutcome) (now : PyDateTime) :
    List (List Point) × Except PyError Unit :=
  match (get_open_positions t).2 with
  | .error e => ([], .error e)
  | .ok positions =>
    let timestamp := now
    let points := buildPoints positions timestamp now
    ([points], .ok ())

/-! ### Attribute-assignment semantics of the model

Pydantic v2 `BaseModel.__setattr__` permits reassigning a data field
unless the model's config sets `frozen=True`; a `computed_field` wraps a
Python property, and one declared without a setter rejects assignment
with `AttributeError`.  `Position.model_config` in `src/schema.py` is
`ConfigDict(alias_generator=to_camel, populate_by_name=True)` — `frozen`
is left at its default `False`. -/

/-- The `ConfigDict` options of `Position.model_config` that bear on the
properties proved here; `frozen` defaults to `False` in pydantic v2. -/
structure ModelConfig where
  populate_by_name : Bool := false
  frozen : Bool := false
deriving DecidableEq, Repr

/-- `Position.model_config` of `src/schema.py`: only `alias_generator`
(rendered into the lookup keys of `parseRecord`) and `populate_by_name`
are set; `frozen` is not. -/
def Position.model_config : ModelConfig :=
  { populate_by_name := true }

/-- An attribute of the model, as targeted by assignment: a declared data
field, or a `computed_field` property declared without a setter. -/
inductive AttrKind where
  | data (name : String)
  | computedNoSetter (name : String)
deriving DecidableEq, Repr

/-- Whether pydantic v2 permits `instance.attr = value` after
construction, given the model's config: data fields are assignable unless
the model is frozen; a computed field without a setter never is. -/
def setattrAllowed (cfg : ModelConfig) : AttrKind → Bool
  | .data _ => !cfg.frozen
  | .computedNoSetter _ => false

/-! ### Concrete sample data

The record below is the first element of `DEFAULT_RESPONSE_CONTENT` in
`tests/test_t212_client.py`; the variants alter single aspects of it. -/

/-- A well-formed raw record (from the repository's own test data). -/
def sampleRecord : RawRecord :=
  [("ticker", .str "TEST1_US_EQ"),
   ("quantity", .num 0.168629),
   ("averagePrice", .num 52.8971885),
   ("currentPrice", .num 56.73),
   ("ppl", .num 0.99),
   ("fxPpl", .num 0.27),
   ("initialFillDate", .str "2025-03-12T20:00:00.000+03:00"),
   ("frontend", .str "SYSTEM"),
   ("maxBuy", .num 1000.1),
   ("maxSell", .num 1000),
   ("pieQuantity", .num 0)]

/-- The sample record with the `fxPpl` key omitted entirely. -/
def sampleRecordNoFx : RawRecord :=
  [("ticker", .str "TEST1_US_EQ"),
   ("quantity", .num 0.168629),
   ("averagePrice", .num 52.8971885),
   ("currentPrice", .num 56.73),
   ("ppl", .num 0.99),
   ("initialFillDate", .str "2025-03-12T20:00:00.000+03:00"),
   ("frontend", .str "SYSTEM"),
   ("maxBuy", .num 1000.1),
   ("maxSell", .num 1000),
   ("pieQuantity", .num 0)]

/-- The sample record with `fxPpl` present and null. -/
def sampleRecordNullFx : RawRecord :=
  [("ticker", .str "TEST1_US_EQ"),
   ("quantity", .num 0.168629),
   ("averagePrice", .num 52.8971885),
   ("currentPrice", .num 56.73),
   ("ppl", .num 0.99),
   ("fxPpl", .null),
   ("initialFillDate", .str "2025-03-12T20:00:00.000+03:00"),
   ("frontend", .str "SYSTEM"),
   ("maxBuy", .num 1000.1),
   ("maxSell", .num 1000),
   ("pieQuantity", .num 0)]

/-- The sample record with a raw ticker that begins with an underscore. -/
def sampleRecordUnderscoreTicker : RawRecord :=
  [("ticker", .str "_US_EQ"),
   ("quantity", .num 0.168629),
   ("averagePrice", .num 52.8971885),
   ("currentPrice", .num 56.73),
   ("ppl", .num 0.99),
   ("fxPpl", .num 0.27),
   ("initialFillDate", .str "2025-03-12T20:00:00.000+03:00"),
   ("frontend", .str "SYSTEM"),
   ("maxBuy", .num 1000.1),
   ("maxSell", .num 1000),
   ("pieQuantity", .num 0)]

/-- The sample record with a non-coercible `quantity` value. -/
def sampleRecordBadQuantity : RawRecord :=
  [("ticker", .str "TEST1_US_EQ"),
   ("quantity", .null),
   ("averagePrice", .num 52.8971885),
   ("currentPrice", .num 56.73),
   ("ppl", .num 0.99),
   ("fxPpl", .num 0.27),
   ("initialFillDate", .str "2025-03-12T20:00:00.000+03:00"),
   ("frontend", .str "SYSTEM"),
   ("maxBuy", .num 1000.1),
   ("maxSell", .num 1000),
   ("pieQuantity", .num 0)]

/-- A concrete batch timestamp (`DEFAULT_TIME` of `tests/test_schema.py`). -/
def sampleTimestamp : PyDateTime := ⟨"2025-03-13T10:10:10+00:00"⟩

/-- A distinct concrete ambient-clock value. -/
def sampleNow : PyDateTime := ⟨"2025-03-13T11:00:00+00:00"⟩

/-- The spec's ticker rule, stated in its own words for comparison with
the source's `validate_ticker`: "split the raw ticker string on the first
underscore; keep only the segment before it; uppercase the result". -/
def specTickerRule (value : String) : String :=
  String.mk ((value.data.takeWhile (fun c => c ≠ '_')).map Char.toUpper)

/-- The `Position` that `sampleRecord` validates to. -/
def samplePosition : Position :=
  ⟨"TEST1", 0.168629, 52.8971885, 56.73, 0.99, some 0.27,
    ⟨"2025-03-12T20:00:00.000+03:00"⟩, "SYSTEM", 1000.1, 1000, 0⟩

/-- The `Position` that `sampleRecordNullFx` validates to. -/
def samplePositionNullFx : Position :=
  ⟨"TEST1", 0.168629, 52.8971885, 56.73, 0.99, none,
    ⟨"2025-03-12T20:00:00.000+03:00"⟩, "SYSTEM", 1000.1, 1000, 0⟩

/-- The `Position` that `sampleRecordUnderscoreTicker` validates to. -/
def samplePositionEmptyTicker : Position :=
  ⟨"", 0.168629, 52.8971885, 56.73, 0.99, some 0.27,
    ⟨"2025-03-12T20:00:00.000+03:00"⟩, "SYSTEM", 1000.1, 1000, 0⟩

/-- The `(alias, field name)` lookup pairs of every `Position` field other
than `forex_movement_impact` — the fields for which null must be
rejected. -/
def otherFieldKeys : List (String × String) :=
  [("ticker", "ticker"),
   ("quantity", "quantity"),
   ("averagePrice", "average_price"),
   ("currentPrice", "current_price"),
   ("ppl", "profit"),
   ("initialFillDate", "initial_fill_date"),
   ("frontend", "frontend"),
   ("maxBuy", "max_buy"),
   ("maxSell", "max_sell"),
   ("pieQuantity", "pie_quantity")]

/-! ## Theorems -/

/-- The first component of Python's `partition` is the longest prefix free
of the separator. -/
theorem pyPartitionChar_fst (sep : Char) (l : List Char) :
    (pyPartitionChar sep l).1 = l.takeWhile (fun c => c ≠ sep) := by
  induction l with
  | nil => rfl
  | cons c cs ih =>
    by_cases h : c = sep
    · subst h
      simp [pyPartitionChar, List.takeWhile]
    · simp [pyPartitionChar, h, List.takeWhile, ih]

/-- `takeWhile` keeps the whole list when the separator never occurs. -/
theorem takeWhile_ne_of_not_mem (sep : Char) (l : List Char) (h : sep ∉ l) :
    l.takeWhile (fun c => c ≠ sep) = l := by
  induction l with
  | nil => rfl
  | cons c cs ih =>
    have hc : c ≠ sep := fun hcs => h (hcs ▸ List.mem_cons_self c cs)
    have hcs : sep ∉ cs := fun hm => h (List.mem_cons_of_mem c hm)
    simp [List.takeWhile, hc, ih hcs]
    intro x hx hxe
    exact hcs (hxe ▸ hx)

/-- The source's `validate_ticker` implements the spec's ticker rule. -/
theorem validate_ticker_eq_spec (value : String) :
    validate_ticker value = specTickerRule value := by
  unfold validate_ticker specTickerRule
  have h := pyPartitionChar_fst '_' value.data
  rcases hp : pyPartitionChar '_' value.data with ⟨t, m, post⟩
  rw [hp] at h
  simp only [hp]
  exact congrArg (fun l => String.mk (l.map Char.toUpper)) h

/-- C2: for every raw ticker string, the normalized ticker is the
uppercased segment before the first underscore (the spec's rule), and a
string containing no underscore is passed through whole, uppercased. -/
theorem c2_ticker_normalization (value : String) :
    validate_ticker value = specTickerRule value ∧
    ('_' ∉ value.data →
      validate_ticker value = String.mk (value.data.map Char.toUpper)) := by
  refine ⟨validate_ticker_eq_spec value, fun h => ?_⟩
  rw [validate_ticker_eq_spec value]
  unfold specTickerRule
  rw [takeWhile_ne_of_not_mem '_' value.data h]

/-- Witness for C2 at a concrete underscore-free ticker. -/
theorem c2_ticker_normalization_witness :
    validate_ticker "aapl" = String.mk ("aapl".data.map Char.toUpper) :=
  (c2_ticker_normalization "aapl").2 (by decide)

/-- Reduction of `Except` bind on a success value. -/
theorem except_bind_ok {ε α β : Type} (a : α) (f : α → Except ε β) :
    (Except.ok a >>= f) = f a := rfl

/-- Reduction of `Except` bind on an error value. -/
theorem except_bind_error {ε α β : Type} (e : ε) (f : α → Except ε β) :
    ((Except.error e : Except ε α) >>= f) = Except.error e := rfl

/-- Inversion of `parseRecord`: validation succeeds with `p` exactly when
every field lookup-and-coercion succeeds with the corresponding field of
`p`. -/
theorem parseRecord_ok_iff (r : RawRecord) (p : Position) :
    parseRecord r = .ok p ↔
      requireField r "ticker" "ticker" coerceTicker = .ok p.ticker ∧
      requireField r "quantity" "quantity" coerceFloat = .ok p.quantity ∧
      requireField r "averagePrice" "average_price" coerceFloat = .ok p.average_price ∧
      requireField r "currentPrice" "current_price" coerceFloat = .ok p.current_price ∧
      requireField r "ppl" "profit" coerceFloat = .ok p.profit ∧
      requireField r "fxPpl" "forex_movement_impact" coerceOptFloat = .ok p.forex_movement_impact ∧
      requireField r "initialFillDate" "initial_fill_date" coerceDatetime = .ok p.initial_fill_date ∧
      requireField r "frontend" "frontend" coerceStr = .ok p.frontend ∧
      requireField r "maxBuy" "max_buy" coerceFloat = .ok p.max_buy ∧
      requireField r "maxSell" "max_sell" coerceFloat = .ok p.max_sell ∧
      requireField r "pieQuantity" "pie_quantity" coerceFloat = .ok p.pie_quantity := by
  obtain ⟨pt, pq, pa, pc, pp, pf, pi, pfr, pmb, pms, ppq⟩ := p
  unfold parseRecord
  cases h1 : requireField r "ticker" "ticker" coerceTicker with
  | error e => simp [h1, except_bind_error]
  | ok v1 =>
    cases h2 : requireField r "quantity" "quantity" coerceFloat with
    | error e => simp [h1, h2, except_bind_ok, except_bind_error]
    | ok v2 =>
      cases h3 : requireField r "averagePrice" "average_price" coerceFloat with
      | error e => simp [h1, h2, h3, except_bind_ok, except_bind_error]
      | ok v3 =>
        cases h4 : requireField r "currentPrice" "current_price" coerceFloat with
        | error e => simp [h1, h2, h3, h4, except_bind_ok, except_bind_error]
        | ok v4 =>
          cases h5 : requireField r "ppl" "profit" coerceFloat with
          | error e => simp [h1, h2, h3, h4, h5, except_bind_ok, except_bind_error]
          | ok v5 =>
            cases h6 : requireField r "fxPpl" "forex_movement_impact" coerceOptFloat with
            | error e => simp [h1, h2, h3, h4, h5, h6, except_bind_ok, except_bind_error]
            | ok v6 =>
              cases h7 : requireField r "initialFillDate" "initial_fill_date" coerceDatetime with
              | error e => simp [h1, h2, h3, h4, h5, h6, h7, except_bind_ok, except_bind_error]
              | ok v7 =>
                cases h8 : requireField r "frontend" "frontend" coerceStr with
                | error e => simp [h1, h2, h3, h4, h5, h6, h7, h8, except_bind_ok, except_bind_error]
                | ok v8 =>
                  cases h9 : requireField r "maxBuy" "max_buy" coerceFloat with
                  | error e => simp [h1, h2, h3, h4, h5, h6, h7, h8, h9, except_bind_ok, except_bind_error]
                  | ok v9 =>
                    cases h10 : requireField r "maxSell" "max_sell" coerceFloat with
                    | error e => simp [h1, h2, h3, h4, h5, h6, h7, h8, h9, h10, except_bind_ok, except_bind_error]
                    | ok v10 =>
                      cases h11 : requireField r "pieQuantity" "pie_quantity" coerceFloat with
                      | error e => simp [h1, h2, h3, h4, h5, h6, h7, h8, h9, h10, h11, except_bind_ok, except_bind_error]
                      | ok v11 =>
                        simp [h1, h2, h3, h4, h5, h6, h7, h8, h9, h10, h11,
                          except_bind_ok, Position.mk.injEq, and_assoc]

/-- Appending entries under fresh keys does not change a lookup. -/
theorem lookup_append_two (k k1 k2 : String) (v w : JsonValue) (r : RawRecord)
    (h1 : k ≠ k1) (h2 : k ≠ k2) :
    List.lookup k (r ++ [(k1, v), (k2, w)]) = List.lookup k r := by
  induction r with
  | nil =>
    simp [List.lookup, beq_eq_false_iff_ne.mpr h1, beq_eq_false_iff_ne.mpr h2]
  | cons a as ih =>
    obtain ⟨ka, va⟩ := a
    simp [List.lookup, ih]

/-- `requireField` is unaffected by extra entries under keys it never
looks up. -/
theorem requireField_append_cv {α : Type} (r : RawRecord) (al name : String)
    (coe : String → JsonValue → Except ValIssue α) (v w : JsonValue)
    (hal1 : al ≠ "current_value") (hal2 : al ≠ "currentValue")
    (hn1 : name ≠ "current_value") (hn2 : name ≠ "currentValue") :
    requireField (r ++ [("current_value", v), ("currentValue", w)]) al name coe
      = requireField r al name coe := by
  unfold requireField lookupKey
  rw [lookup_append_two al "current_value" "currentValue" v w r hal1 hal2,
    lookup_append_two name "current_value" "currentValue" v w r hn1 hn2]

/-- C3: `current_value` is `current_price * quantity`, recomputed as a
pure function of those two fields; the point carries exactly that product
under the `current_value` field key; and it is never part of the
validated input — a raw record carrying `current_value`/`currentValue`
entries validates exactly as the same record without them. -/
theorem c3_current_value_derived (p : Position) (time : Option PyDateTime)
    (now : PyDateTime) :
    p.current_value = p.current_price * p.quantity ∧
    (p.to_point time now).fields.lookup "current_value"
      = some (some (p.current_price * p.quantity)) ∧
    ∀ (r : RawRecord) (v w : JsonValue),
      parseRecord (r ++ [("current_value", v), ("currentValue", w)])
        = parseRecord r := by
  refine ⟨rfl, ?_, ?_⟩
  · simp [Position.to_point, Point.init, Point.tag, Point.fieldEntry,
      Point.withTime, Position.current_value, List.lookup]
  · intro r v w
    have e1 := requireField_append_cv r "ticker" "ticker" coerceTicker v w
      (by decide) (by decide) (by decide) (by decide)
    have e2 := requireField_append_cv r "quantity" "quantity" coerceFloat v w
      (by decide) (by decide) (by decide) (by decide)
    have e3 := requireField_append_cv r "averagePrice" "average_price" coerceFloat v w
      (by decide) (by decide) (by decide) (by decide)
    have e4 := requireField_append_cv r "currentPrice" "current_price" coerceFloat v w
      (by decide) (by decide) (by decide) (by decide)
    have e5 := requireField_append_cv r "ppl" "profit" coerceFloat v w
      (by decide) (by decide) (by decide) (by decide)
    have e6 := requireField_append_cv r "fxPpl" "forex_movement_impact" coerceOptFloat v w
      (by decide) (by decide) (by decide) (by decide)
    have e7 := requireField_append_cv r "initialFillDate" "initial_fill_date" coerceDatetime v w
      (by decide) (by decide) (by decide) (by decide)
    have e8 := requireField_append_cv r "frontend" "frontend" coerceStr v w
      (by decide) (by decide) (by decide) (by decide)
    have e9 := requireField_append_cv r "maxBuy" "max_buy" coerceFloat v w
      (by decide) (by decide) (by decide) (by decide)
    have e10 := requireField_append_cv r "maxSell" "max_sell" coerceFloat v w
      (by decide) (by decide) (by decide) (by decide)
    have e11 := requireField_append_cv r "pieQuantity" "pie_quantity" coerceFloat v w
      (by decide) (by decide) (by decide) (by decide)
    simp only [parseRecord, e1, e2, e3, e4, e5, e6, e7, e8, e9, e10, e11]

/-- C4: every point of one orchestration batch carries the one shared
timestamp — both for the list comprehension `buildPoints` applied to any
batch and timestamp, and end to end in `main_run`, where the single
captured clock value is the timestamp of every written point. -/
theorem c4_shared_batch_timestamp :
    (∀ (positions : List Position) (timestamp now : PyDateTime) (pt : Point),
      pt ∈ buildPoints positions timestamp now → pt.time = some timestamp) ∧
    (∀ (t : TransportOutcome) (now : PyDateTime) (batch : List Point) (pt : Point),
      batch ∈ (main_run t now).1 → pt ∈ batch → pt.time = some now) := by
  have hbuild : ∀ (positions : List Position) (timestamp now : PyDateTime)
      (pt : Point), pt ∈ buildPoints positions timestamp now →
      pt.time = some timestamp := by
    intro positions timestamp now pt hpt
    simp only [buildPoints, List.mem_map] at hpt
    obtain ⟨position, _, rfl⟩ := hpt
    rfl
  refine ⟨hbuild, fun t now batch pt hb hpt => ?_⟩
  cases hfetch : (get_open_positions t).2 with
  | error e => simp [main_run, hfetch] at hb
  | ok positions =>
    simp only [main_run, hfetch, List.mem_singleton] at hb
    subst hb
    exact hbuild positions now now pt hpt

/-- Witness for C4 at a concrete one-element batch. -/
theorem c4_shared_batch_timestamp_witness :
    (samplePosition.to_point (some sampleTimestamp) sampleNow).time
      = some sampleTimestamp :=
  c4_shared_batch_timestamp.1 [samplePosition] sampleTimestamp sampleNow
    (samplePosition.to_point (some sampleTimestamp) sampleNow)
    (by simp [buildPoints])

/-- C7: `to_point` always yields measurement `stock_price`, exactly the
one `ticker` tag, and exactly the six named fields in insertion order; a
null `forex_movement_impact` is carried as null (never coerced to zero),
and the builder does not fail on it — `to_point` is total. -/
theorem c7_point_shape (p : Position) (time : Option PyDateTime)
    (now : PyDateTime) :
    (p.to_point time now).measurement = "stock_price" ∧
    (p.to_point time now).tags = [("ticker", p.ticker)] ∧
    (p.to_point time now).fields =
      [("current_price", some p.current_price),
       ("average_price", some p.average_price),
       ("quantity", some p.quantity),
       ("profit", some p.profit),
       ("forex_movement_impact", p.forex_movement_impact),
       ("current_value", some (p.current_price * p.quantity))] ∧
    (p.forex_movement_impact = none →
      (p.to_point time now).fields.lookup "forex_movement_impact"
        = some none) := by
  have hf : (p.to_point time now).fields.lookup "forex_movement_impact"
      = some p.forex_movement_impact := rfl
  exact ⟨rfl, rfl, rfl, fun h => by rw [hf, h]⟩

/-- Witness for C7 at a concrete position with null
`forex_movement_impact`. -/
theorem c7_point_shape_witness :
    (samplePositionNullFx.to_point (some sampleTimestamp) sampleNow).fields.lookup
      "forex_movement_impact" = some none :=
  (c7_point_shape samplePositionNullFx (some sampleTimestamp)
    sampleNow).2.2.2 rfl

/-- C9: every call of `get_open_positions` emits exactly one client-open
event followed by its close event, on every exit path — including a
transport exception during the GET and a non-2xx response. -/
theorem c9_client_lifecycle (t : TransportOutcome) :
    (get_open_positions t).1 = [ClientEvent.opened, ClientEvent.closed] := rfl

/-- C1: evaluation of the code at the failing input.  When `client.get`
itself raises a transport-level `HTTPError` (no response object exists),
`get_open_positions` raises `UnboundLocalError` from the handler's log
f-string — not `APICallFailedException` wrapping the cause as the claim
states; the claim's no-write half does hold on this path. -/
theorem c1_transport_failure_code_bug :
    (get_open_positions (.raises .requestError)).2
      = .error (.unboundLocal "response") ∧
    (main_run (.raises .requestError) sampleNow).1 = [] :=
  ⟨rfl, rfl⟩

/-- C6 counterexample: `Position.model_config` leaves `frozen` at its
default `False`, so pydantic permits reassigning the data field `ticker`
of a constructed `Position` — refuting the claim that no field can be
reassigned. -/
theorem c6_mutable_counterexample :
    setattrAllowed Position.model_config (.data "ticker") = true := rfl

/-- C6 amended: `Position` is not frozen — every data field remains
reassignable after construction; only the derived `current_value`, a
computed field without a setter, cannot be assigned. -/
theorem c6_immutability_amended (name : String) :
    setattrAllowed Position.model_config (.data name) = true ∧
    setattrAllowed Position.model_config (.computedNoSetter "current_value")
      = false :=
  ⟨rfl, rfl⟩

/-- `requireField` reduces to the coercion when the key is found. -/
theorem requireField_lookup_some {α : Type} (r : RawRecord) (al name : String)
    (coe : String → JsonValue → Except ValIssue α) (v : JsonValue)
    (hl : lookupKey r al name = some v) :
    requireField r al name coe = coe al v := by
  unfold requireField
  rw [hl]

/-- `requireField` reduces to a missing-field error when the key is
absent. -/
theorem requireField_lookup_none {α : Type} (r : RawRecord) (al name : String)
    (coe : String → JsonValue → Except ValIssue α)
    (hl : lookupKey r al name = none) :
    requireField r al name coe = .error (.missing al) := by
  unfold requireField
  rw [hl]

/-- A successfully coerced required field cannot have been looked up as
null, for any coercion that rejects null. -/
theorem requireField_ok_not_null {α : Type} (r : RawRecord) (al name : String)
    (coe : String → JsonValue → Except ValIssue α) (a : α)
    (hnullcoe : ∀ loc, coe loc .null = .error (.typeError loc))
    (h : requireField r al name coe = .ok a) :
    lookupKey r al name ≠ some .null := by
  intro hl
  rw [requireField_lookup_some r al name coe JsonValue.null hl, hnullcoe al] at h
  exact Except.noConfusion h

/-- C5 counterexample: the repository's own well-formed test record with
the `fxPpl` key omitted entirely fails validation with a missing-field
error (the field has no default, so pydantic v2 requires the key),
refuting the claim that parsing succeeds. -/
theorem c5_missing_fxppl_counterexample :
    parseRecord sampleRecordNoFx = .error (.missing "fxPpl") := rfl

/-- C5 amended: the `fxPpl` key is required — a record without it (under
alias or field name) fails validation; `forex_movement_impact` is
nullable only through an explicit null value, in which case parsing
succeeds with the field absent; and it is the only field for which a
null value is accepted. -/
theorem c5_fxppl_nullability_amended (r : RawRecord) :
    (lookupKey r "fxPpl" "forex_movement_impact" = none →
      ∃ e, parseRecord r = .error e) ∧
    (∀ p : Position, parseRecord r = .ok p →
      (lookupKey r "fxPpl" "forex_movement_impact" = some .null ↔
        p.forex_movement_impact = none)) ∧
    (∀ p : Position, parseRecord r = .ok p →
      ∀ ks ∈ otherFieldKeys, lookupKey r ks.1 ks.2 ≠ some .null) := by
  refine ⟨fun hnone => ?_, fun p hp => ?_, fun p hp ks hks => ?_⟩
  · cases hparse : parseRecord r with
    | error e => exact ⟨e, rfl⟩
    | ok p =>
      exfalso
      have h6 := ((parseRecord_ok_iff r p).mp hparse).2.2.2.2.2.1
      rw [requireField_lookup_none r "fxPpl" "forex_movement_impact"
        coerceOptFloat hnone] at h6
      exact Except.noConfusion h6
  · have h6 := ((parseRecord_ok_iff r p).mp hp).2.2.2.2.2.1
    cases hl : lookupKey r "fxPpl" "forex_movement_impact" with
    | none =>
      rw [requireField_lookup_none r "fxPpl" "forex_movement_impact"
        coerceOptFloat hl] at h6
      exact Except.noConfusion h6
    | some v =>
      rw [requireField_lookup_some r "fxPpl" "forex_movement_impact"
        coerceOptFloat v hl] at h6
      constructor
      · intro hnull
        have hv : v = JsonValue.null := Option.some.inj hnull
        subst hv
        simp only [coerceOptFloat] at h6
        simp only [Except.ok.injEq] at h6
        exact h6.symm
      · intro hfx
        rw [hfx] at h6
        cases v with
        | num q => simp [coerceOptFloat] at h6
        | str s => simp [coerceOptFloat] at h6
        | null => rfl
  · have hok := (parseRecord_ok_iff r p).mp hp
    obtain ⟨k1, k2, k3, k4, k5, k6, k7, k8, k9, k10, k11⟩ := hok
    simp only [otherFieldKeys, List.mem_cons, List.not_mem_nil, or_false] at hks
    rcases hks with rfl | rfl | rfl | rfl | rfl | rfl | rfl | rfl | rfl | rfl
    · exact requireField_ok_not_null r _ _ _ _ (fun loc => rfl) k1
    · exact requireField_ok_not_null r _ _ _ _ (fun loc => rfl) k2
    · exact requireField_ok_not_null r _ _ _ _ (fun loc => rfl) k3
    · exact requireField_ok_not_null r _ _ _ _ (fun loc => rfl) k4
    · exact requireField_ok_not_null r _ _ _ _ (fun loc => rfl) k5
    · exact requireField_ok_not_null r _ _ _ _ (fun loc => rfl) k7
    · exact requireField_ok_not_null r _ _ _ _ (fun loc => rfl) k8
    · exact requireField_ok_not_null r _ _ _ _ (fun loc => rfl) k9
    · exact requireField_ok_not_null r _ _ _ _ (fun loc => rfl) k10
    · exact requireField_ok_not_null r _ _ _ _ (fun loc => rfl) k11

/-- Witness for C5 (amended): a null `fxPpl` parses to an absent
`forex_movement_impact`, and omitting the key fails validation. -/
theorem c5_fxppl_nullability_amended_witness :
    samplePositionNullFx.forex_movement_impact = none ∧
    (∃ e, parseRecord sampleRecordNoFx = .error e) :=
  ⟨((c5_fxppl_nullability_amended sampleRecordNullFx).2.1 samplePositionNullFx
      rfl).mp rfl,
   (c5_fxppl_nullability_amended sampleRecordNoFx).1 rfl⟩

/-- C10: ticker validation applies no non-emptiness check — it succeeds
on every raw string — and a raw ticker beginning with an underscore
normalizes to the empty string, so the validated `Position` and its point
carry an empty ticker tag. -/
theorem c10_empty_ticker :
    (∀ s : String, coerceTicker "ticker" (.str s) = .ok (validate_ticker s)) ∧
    (∀ (r : RawRecord) (rest : List Char) (p : Position)
      (time : Option PyDateTime) (now : PyDateTime),
      lookupKey r "ticker" "ticker" = some (.str (String.mk ('_' :: rest))) →
      parseRecord r = .ok p →
      p.ticker = "" ∧ (p.to_point time now).tags = [("ticker", "")]) := by
  refine ⟨fun s => rfl, fun r rest p time now hl hp => ?_⟩
  have k1 := ((parseRecord_ok_iff r p).mp hp).1
  unfold requireField at k1
  rw [hl] at k1
  simp only [coerceTicker] at k1
  have hval : validate_ticker (String.mk ('_' :: rest)) = "" := rfl
  rw [hval] at k1
  have hticker : p.ticker = "" := by
    simpa using k1.symm
  refine ⟨hticker, ?_⟩
  rw [show (p.to_point time now).tags = [("ticker", p.ticker)] from rfl, hticker]

/-- Witness for C10 at the concrete raw ticker `\"_US_EQ\"`. -/
theorem c10_empty_ticker_witness :
    samplePositionEmptyTicker.ticker = "" ∧
    (samplePositionEmptyTicker.to_point (some sampleTimestamp) sampleNow).tags
      = [("ticker", "")] :=
  c10_empty_ticker.2 sampleRecordUnderscoreTicker "US_EQ".data
    samplePositionEmptyTicker (some sampleTimestamp) sampleNow
    rfl rfl

/-- A batch containing a failing record makes the whole validation fail. -/
theorem validateListAux_error_of_mem (body : List RawRecord) :
    ∀ i : Nat, (∃ r ∈ body, ∃ e, parseRecord r = .error e) →
    ∃ es, validateListAux i body = .error es := by
  induction body with
  | nil =>
    intro i h
    rcases h with ⟨r, hr, _⟩
    cases hr
  | cons a as ih =>
    intro i h
    cases hpa : parseRecord a with
    | error e =>
      cases hrec : validateListAux (i + 1) as with
      | ok ps => exact ⟨[(i, e)], by simp [validateListAux, hpa, hrec]⟩
      | error es => exact ⟨(i, e) :: es, by simp [validateListAux, hpa, hrec]⟩
    | ok p =>
      rcases h with ⟨r, hr, e, hre⟩
      rcases List.mem_cons.mp hr with rfl | hras
      · rw [hpa] at hre
        exact Except.noConfusion hre
      · obtain ⟨es, hes⟩ := ih (i + 1) ⟨r, hras, e, hre⟩
        exact ⟨es, by simp [validateListAux, hpa, hes]⟩

/-- A failed batch validation reports at least one issue. -/
theorem validateListAux_error_ne_nil (body : List RawRecord) :
    ∀ (i : Nat) (es : List (Nat × ValIssue)),
    validateListAux i body = .error es → es ≠ [] := by
  induction body with
  | nil =>
    intro i es h
    simp [validateListAux] at h
  | cons a as ih =>
    intro i es h
    cases hpa : parseRecord a with
    | error e =>
      cases hrec : validateListAux (i + 1) as with
      | ok ps =>
        simp [validateListAux, hpa, hrec] at h
        simp [← h]
      | error es' =>
        simp [validateListAux, hpa, hrec] at h
        simp [← h]
    | ok p =>
      cases hrec : validateListAux (i + 1) as with
      | ok ps => simp [validateListAux, hpa, hrec] at h
      | error es' =>
        simp [validateListAux, hpa, hrec] at h
        exact h ▸ ih (i + 1) es' hrec

/-- Every issue reported by a failed batch validation identifies an
offending record: its index points into the batch at a record whose own
validation fails with exactly that issue. -/
theorem validateListAux_error_mem (body : List RawRecord) :
    ∀ (i : Nat) (es : List (Nat × ValIssue)),
    validateListAux i body = .error es →
    ∀ ie ∈ es, i ≤ ie.1 ∧
      ∃ r, body.get? (ie.1 - i) = some r ∧ parseRecord r = .error ie.2 := by
  induction body with
  | nil =>
    intro i es h
    simp [validateListAux] at h
  | cons a as ih =>
    intro i es h ie hie
    cases hpa : parseRecord a with
    | error e =>
      cases hrec : validateListAux (i + 1) as with
      | ok ps =>
        simp [validateListAux, hpa, hrec] at h
        rw [← h] at hie
        rcases List.mem_singleton.mp hie with rfl
        exact ⟨Nat.le_refl i, a, by simp, hpa⟩
      | error es' =>
        simp [validateListAux, hpa, hrec] at h
        rw [← h] at hie
        rcases List.mem_cons.mp hie with rfl | hie'
        · exact ⟨Nat.le_refl i, a, by simp, hpa⟩
        · obtain ⟨hle, r, hr, hpe⟩ := ih (i + 1) es' hrec ie hie'
          refine ⟨Nat.le_of_succ_le hle, r, ?_, hpe⟩
          have hidx : ie.1 - i = (ie.1 - (i + 1)) + 1 := by omega
          rw [hidx]
          simpa using hr
    | ok p =>
      cases hrec : validateListAux (i + 1) as with
      | ok ps => simp [validateListAux, hpa, hrec] at h
      | error es' =>
        simp [validateListAux, hpa, hrec] at h
        rw [← h] at hie
        obtain ⟨hle, r, hr, hpe⟩ := ih (i + 1) es' hrec ie hie
        refine ⟨Nat.le_of_succ_le hle, r, ?_, hpe⟩
        have hidx : ie.1 - i = (ie.1 - (i + 1)) + 1 := by omega
        rw [hidx]
        simpa using hr

/-- C8: a fetched batch containing a record that fails validation makes
the whole batch validation fail with issues identifying the offending
records — no partial list of positions is ever produced. -/
theorem c8_fail_fast_batch (body : List RawRecord)
    (h : ∃ r ∈ body, ∃ e, parseRecord r = .error e) :
    ∃ issues, validatePositions body = .error issues ∧ issues ≠ [] ∧
      ∀ ie ∈ issues, ∃ r, body.get? ie.1 = some r ∧
        parseRecord r = .error ie.2 := by
  obtain ⟨es, hes⟩ := validateListAux_error_of_mem body 0 h
  refine ⟨es, hes, validateListAux_error_ne_nil body 0 es hes,
    fun ie hie => ?_⟩
  obtain ⟨_, r, hr, hpe⟩ := validateListAux_error_mem body 0 es hes ie hie
  rw [Nat.sub_zero] at hr
  exact ⟨r, hr, hpe⟩

/-- Witness for C8 at a concrete two-record batch whose second record has
a non-coercible `quantity`. -/
theorem c8_fail_fast_batch_witness :
    ∃ issues, validatePositions [sampleRecord, sampleRecordBadQuantity]
        = .error issues ∧ issues ≠ [] ∧
      ∀ ie ∈ issues, ∃ r,
        [sampleRecord, sampleRecordBadQuantity].get? ie.1 = some r ∧
        parseRecord r = .error ie.2 :=
  c8_fail_fast_batch [sampleRecord, sampleRecordBadQuantity]
    ⟨sampleRecordBadQuantity, List.Mem.tail _ (List.Mem.head _),
      .typeError "quantity", rfl⟩

end TomasPer
